import Mathlib

/-!
Verification of the numeric transform-pipeline engine in `sonarqube.py`.

The engine is embedded shallowly: Python floats become real numbers,
the two process-wide dictionaries (`TRANSFORMS`, `PIPELINES`) become an
explicit `EngineState` record threaded through the operations, and
fallible operations return `Except`.  Python's `raise ValueError` on a
duplicate pipeline name is modelled by `BuildError.duplicatePipeline`,
its `raise KeyError` on unknown transform names by
`BuildError.unknownTransforms`, and the `KeyError` of
`run_with_context` by `RunError.unknownPipeline`.
-/

/-- A transform is a pure function from one real number to one real number. -/
abbrev Transform : Type := ℝ → ℝ

/-- A pipeline: a name together with the ordered list of transform functions
captured at build time (the functions themselves, not their names),
mirroring the `Pipeline` dataclass. -/
structure Pipeline where
  name : String
  steps : List Transform

/-- The two process-wide registries of `sonarqube.py`
(`TRANSFORMS: Dict[str, Callable]` and `PIPELINES: Dict[str, Pipeline]`),
modelled as partial maps. -/
structure EngineState where
  transforms : String → Option Transform
  pipelines : String → Option Pipeline

/-- The state at the start of the process: both dictionaries empty. -/
def emptyState : EngineState :=
  { transforms := fun _ => none, pipelines := fun _ => none }

/-- Mirrors `register_transform(name)` applied to `fn`:
`TRANSFORMS[name] = fn`, overwriting any previous entry (last writer wins). -/
def register_transform (st : EngineState) (name : String) (fn : Transform) :
    EngineState :=
  { st with transforms := fun s => if s = name then some fn else st.transforms s }

/-- Passing one value through every step in insertion order: the inner
`for step in self.steps: v = step(v)` loop of `Pipeline.run`. -/
def applySteps (steps : List Transform) (v : ℝ) : ℝ :=
  steps.foldl (fun a f => f a) v

/-- Mirrors `Pipeline.run(self, values)`: each input value is passed through
every step in order and the results are collected in input order. -/
def Pipeline.run (p : Pipeline) (values : List ℝ) : List ℝ :=
  values.map (applySteps p.steps)

/-- Mirrors `Pipeline.add_step`. -/
def Pipeline.add_step (p : Pipeline) (fn : Transform) : Pipeline :=
  { p with steps := p.steps ++ [fn] }

/-- The two failure modes of `build_pipeline`: `ValueError` for a duplicate
pipeline name and `KeyError` carrying the list of unknown transform names. -/
inductive BuildError where
  | duplicatePipeline (name : String)
  | unknownTransforms (missing : List String)
deriving DecidableEq, Repr

/-- Mirrors `build_pipeline(name, spec)`: duplicate-name check first, then the
unknown-transforms check over the subsequence of `spec` absent from the
transform registry, then construction (one step per name, in `spec` order,
resolved from the registry) and registration.  On success the new state with
the pipeline registered is returned alongside the pipeline; on error no new
state exists, which models the atomicity of validation.  The `.getD id`
fallback in the step lookup is unreachable: it is guarded by the emptiness
of `missing`. -/
def build_pipeline (st : EngineState) (name : String) (spec : List String) :
    Except BuildError (Pipeline × EngineState) :=
  if (st.pipelines name).isSome then
    .error (.duplicatePipeline name)
  else
    let missing := spec.filter (fun s => (st.transforms s).isNone)
    if missing.isEmpty then
      let pipe : Pipeline :=
        { name := name, steps := spec.map (fun key => (st.transforms key).getD id) }
      .ok (pipe, { st with
        pipelines := fun n => if n = name then some pipe else st.pipelines n })
    else
      .error (.unknownTransforms missing)

/-- Mirrors the built-in transform `center(x) = x - 0.5`. -/
def center (x : ℝ) : ℝ := x - 0.5

/-- Mirrors the built-in transform `square(x) = x * x`. -/
def square (x : ℝ) : ℝ := x * x

/-- Mirrors the built-in transform `sqrt_plus_one(x) = math.sqrt(abs(x)) + 1.0`. -/
noncomputable def sqrt_plus_one (x : ℝ) : ℝ := Real.sqrt |x| + 1.0

/-- Mirrors the built-in transform `clip_0_2(x) = max(0.0, min(2.0, x))`. -/
def clip_0_2 (x : ℝ) : ℝ := max 0.0 (min 2.0 x)

/-- Mirrors the built-in transform `normalize_0_1(x) = x` (identity placeholder). -/
def normalize_0_1 (x : ℝ) : ℝ := x

/-- The state after module load: the five decorated built-in transforms are
registered (in source order) and the pipeline registry is still empty. -/
noncomputable def initState : EngineState :=
  register_transform
    (register_transform
      (register_transform
        (register_transform
          (register_transform emptyState "center" center)
          "square" square)
        "sqrt_plus_one" sqrt_plus_one)
      "clip_0_2" clip_0_2)
    "normalize_0_1" normalize_0_1

/-- Mirrors `number_stream(n)`: the value at index `i` is `(37 * i % 101) / 100.0`
for `i` in `[0, n)`. -/
noncomputable def number_stream (n : ℕ) : List ℝ :=
  (List.range n).map (fun i => ((37 * i % 101 : ℕ) : ℝ) / 100.0)

/-- The result dictionary of `summarize`: `count` plus the three statistics,
which are `None` (here `Option.none`) on an empty input. -/
structure Summary where
  count : ℕ
  min : Option ℝ
  max : Option ℝ
  mean : Option ℝ

/-- Python's `sum` over a list of floats: a left fold of `+` starting at `0`. -/
def pySum (l : List ℝ) : ℝ := l.foldl (fun a b => a + b) 0

/-- Python's `min` over a non-empty list `v :: vs`. -/
def pyMin (v : ℝ) (vs : List ℝ) : ℝ := vs.foldl min v

/-- Python's `max` over a non-empty list `v :: vs`. -/
def pyMax (v : ℝ) (vs : List ℝ) : ℝ := vs.foldl max v

/-- Mirrors `summarize(values)`: on an empty list, count `0` and `None` for
min, max and mean; otherwise count, minimum, maximum and `sum / count`. -/
noncomputable def summarize (values : List ℝ) : Summary :=
  match values with
  | [] => { count := 0, min := none, max := none, mean := none }
  | v :: vs =>
    { count := (v :: vs).length
      min := some (pyMin v vs)
      max := some (pyMax v vs)
      mean := some (pySum (v :: vs) / ((v :: vs).length : ℝ)) }

/-- Mirrors the `PipelineRunContext` dataclass. -/
structure PipelineRunContext where
  name : String
  input_count : ℕ
  min_before : ℝ
  max_before : ℝ
  min_after : ℝ
  max_after : ℝ

/-- The failure mode of `run_with_context`: `KeyError` when the named pipeline
is not registered. -/
inductive RunError where
  | unknownPipeline (name : String)
deriving DecidableEq, Repr

/-- Mirrors `run_with_context(pipe_name, values)`: unknown-pipeline check,
then the zeroed context on empty input, otherwise the context holding the
input count and the before/after ranges (the `print` call is I/O and is not
modelled). -/
def run_with_context (st : EngineState) (pipe_name : String) (values : List ℝ) :
    Except RunError PipelineRunContext :=
  match st.pipelines pipe_name with
  | none => .error (.unknownPipeline pipe_name)
  | some pipe =>
    match values with
    | [] => .ok { name := pipe_name, input_count := 0,
                  min_before := 0.0, max_before := 0.0,
                  min_after := 0.0, max_after := 0.0 }
    | v :: vs =>
      let out_head := applySteps pipe.steps v
      let out_tail := vs.map (applySteps pipe.steps)
      .ok { name := pipe_name
            input_count := (v :: vs).length
            min_before := pyMin v vs
            max_before := pyMax v vs
            min_after := pyMin out_head out_tail
            max_after := pyMax out_head out_tail }

/-- The value `m` is the minimum of the list `l`. -/
def IsMinOf (m : ℝ) (l : List ℝ) : Prop := m ∈ l ∧ ∀ x ∈ l, m ≤ x

/-- The value `m` is the maximum of the list `l`. -/
def IsMaxOf (m : ℝ) (l : List ℝ) : Prop := m ∈ l ∧ ∀ x ∈ l, x ≤ m

/-- A concrete state for exercising the builder's error paths: the transform
registry is empty and a single pipeline named `"dup"` is registered. -/
def stateWithDup : EngineState :=
  { transforms := fun _ => none
    pipelines := fun s => if s = "dup" then some { name := "dup", steps := [] } else none }

/-- A concrete transform used to exercise build-time capture. -/
def double : Transform := fun x => x * 2

/-- A concrete state whose transform registry holds only `"double"`. -/
def stWithDouble : EngineState :=
  { transforms := fun s => if s = "double" then some double else none
    pipelines := fun _ => none }

/-- The pipeline that `build_pipeline stWithDouble "d" ["double"]` constructs. -/
def pipeDouble : Pipeline := { name := "d", steps := [double] }

/-- The state that `build_pipeline stWithDouble "d" ["double"]` returns. -/
def stAfterBuildD : EngineState :=
  { stWithDouble with
    pipelines := fun n => if n = "d" then some pipeDouble else stWithDouble.pipelines n }

/-! ## Helper lemmas about the Python-style folds -/

theorem pyMin_mem (vs : List ℝ) : ∀ v : ℝ, pyMin v vs ∈ v :: vs := by
  induction vs with
  | nil => intro v; simp [pyMin]
  | cons w ws ih =>
    intro v
    have hstep : pyMin v (w :: ws) = pyMin (min v w) ws := rfl
    rw [hstep]
    rcases List.mem_cons.mp (ih (min v w)) with h1 | h1
    · rcases min_choice v w with hc | hc
      · rw [h1, hc]; exact List.mem_cons_self _ _
      · rw [h1, hc]; exact List.mem_cons_of_mem _ (List.mem_cons_self _ _)
    · exact List.mem_cons_of_mem _ (List.mem_cons_of_mem _ h1)

theorem pyMin_le (vs : List ℝ) : ∀ v : ℝ, ∀ x ∈ v :: vs, pyMin v vs ≤ x := by
  induction vs with
  | nil =>
    intro v x hx
    rcases List.mem_cons.mp hx with h1 | h1
    · subst h1; exact le_refl x
    · exact absurd h1 (List.not_mem_nil x)
  | cons w ws ih =>
    intro v x hx
    have hstep : pyMin v (w :: ws) = pyMin (min v w) ws := rfl
    have hself : pyMin (min v w) ws ≤ min v w :=
      ih (min v w) (min v w) (List.mem_cons_self _ _)
    rw [hstep]
    rcases List.mem_cons.mp hx with h1 | h1
    · exact h1 ▸ hself.trans (min_le_left _ _)
    · rcases List.mem_cons.mp h1 with h2 | h2
      · exact h2 ▸ hself.trans (min_le_right _ _)
      · exact ih (min v w) x (List.mem_cons_of_mem _ h2)

theorem pyMax_mem (vs : List ℝ) : ∀ v : ℝ, pyMax v vs ∈ v :: vs := by
  induction vs with
  | nil => intro v; simp [pyMax]
  | cons w ws ih =>
    intro v
    have hstep : pyMax v (w :: ws) = pyMax (max v w) ws := rfl
    rw [hstep]
    rcases List.mem_cons.mp (ih (max v w)) with h1 | h1
    · rcases max_choice v w with hc | hc
      · rw [h1, hc]; exact List.mem_cons_self _ _
      · rw [h1, hc]; exact List.mem_cons_of_mem _ (List.mem_cons_self _ _)
    · exact List.mem_cons_of_mem _ (List.mem_cons_of_mem _ h1)

theorem le_pyMax (vs : List ℝ) : ∀ v : ℝ, ∀ x ∈ v :: vs, x ≤ pyMax v vs := by
  induction vs with
  | nil =>
    intro v x hx
    rcases List.mem_cons.mp hx with h1 | h1
    · subst h1; exact le_refl x
    · exact absurd h1 (List.not_mem_nil x)
  | cons w ws ih =>
    intro v x hx
    have hstep : pyMax v (w :: ws) = pyMax (max v w) ws := rfl
    have hself : max v w ≤ pyMax (max v w) ws :=
      ih (max v w) (max v w) (List.mem_cons_self _ _)
    rw [hstep]
    rcases List.mem_cons.mp hx with h1 | h1
    · subst h1; exact (le_max_left _ _).trans hself
    · rcases List.mem_cons.mp h1 with h2 | h2
      · subst h2; exact (le_max_right _ _).trans hself
      · exact ih (max v w) x (List.mem_cons_of_mem _ h2)

theorem pySum_eq_sum (l : List ℝ) : pySum l = l.sum := by
  have h : ∀ (l : List ℝ) (a : ℝ), l.foldl (fun x y => x + y) a = a + l.sum := by
    intro l
    induction l with
    | nil => intro a; simp
    | cons b bs ih => intro a; simp only [List.foldl_cons, ih, List.sum_cons]; ring
  simpa [pySum] using h l 0

/-! ## Claim theorems -/

/-- C1: `Pipeline.run` returns a new sequence of the same length and order as
the input, whose element at index `i` is the result of passing the input's
element at index `i` through every step in insertion order (`applySteps`,
the left fold of the step list); the input itself is untouched (the
embedding is pure, so freedom from mutation is inherent), and the empty
input yields the empty output with no error. -/
theorem C1_run_pointwise (p : Pipeline) (V : List ℝ) :
    (p.run V).length = V.length ∧
    (∀ i : ℕ, (p.run V)[i]? = (V[i]?).map (applySteps p.steps)) ∧
    p.run ([] : List ℝ) = [] := by
  refine ⟨by simp [Pipeline.run], fun i => ?_, rfl⟩
  simp [Pipeline.run, List.getElem?_map]

/-- C6: `summarize` of the empty list is count `0` with the `None` sentinel
(not a numeric `0`) for min, max and mean; on a non-empty list it returns
the length as count, the minimum as min, the maximum as max, and the sum
divided by the count as mean. -/
theorem C6_summarize_correct :
    summarize [] = { count := 0, min := none, max := none, mean := none } ∧
    ∀ (v : ℝ) (vs : List ℝ),
      (summarize (v :: vs)).count = (v :: vs).length ∧
      (∃ m, (summarize (v :: vs)).min = some m ∧ IsMinOf m (v :: vs)) ∧
      (∃ m, (summarize (v :: vs)).max = some m ∧ IsMaxOf m (v :: vs)) ∧
      (summarize (v :: vs)).mean = some ((v :: vs).sum / ((v :: vs).length : ℝ)) := by
  refine ⟨rfl, fun v vs => ⟨rfl, ?_, ?_, ?_⟩⟩
  · exact ⟨pyMin v vs, rfl, pyMin_mem vs v, pyMin_le vs v⟩
  · exact ⟨pyMax v vs, rfl, pyMax_mem vs v, le_pyMax vs v⟩
  · simp [summarize, pySum_eq_sum]

/-- C6 witness: `summarize [1.0, 2.0, 3.0]` has count `3` and
`summarize []` carries the sentinel. -/
theorem C6_summarize_correct_witness :
    summarize [] = { count := 0, min := none, max := none, mean := none } ∧
    (summarize [(1 : ℝ), 2, 3]).count = 3 :=
  ⟨C6_summarize_correct.1, (C6_summarize_correct.2 1 [2, 3]).1⟩

/-- C7: `number_stream n` has exactly `n` values, the value at index `i`
being `(37 * i mod 101) / 100`; `number_stream 0` is empty and
`number_stream 3` is `[0, 0.37, 0.74]`. -/
theorem C7_number_stream_values (n : ℕ) :
    (number_stream n).length = n ∧
    (∀ i : ℕ, (number_stream n)[i]? =
      if i < n then some (((37 * i % 101 : ℕ) : ℝ) / 100) else none) ∧
    number_stream 0 = [] ∧
    number_stream 3 = [0, 37 / 100, 74 / 100] := by
  refine ⟨by simp [number_stream], fun i => ?_, rfl, ?_⟩
  · by_cases h : i < n
    · rw [number_stream, List.getElem?_map, List.getElem?_range h]
      norm_num [h]
    · rw [number_stream, List.getElem?_map, List.getElem?_eq_none (by simpa using Nat.le_of_not_lt h)]
      simp [h]
  · norm_num [number_stream, List.range_succ]

/-- C2 counterexample: with pipeline `"dup"` already registered and `"nope"`
absent from the transform registry, `build_pipeline` fails with the
duplicate-name error, not with `unknownTransforms ["nope"]` — the
duplicate-name check runs first, so the claim's universal quantification
over every pipeline name is too strong. -/
theorem C2_counterexample :
    (stateWithDup.transforms "nope").isNone = true ∧
    (stateWithDup.pipelines "dup").isSome = true ∧
    build_pipeline stateWithDup "dup" ["nope"] =
      .error (.duplicatePipeline "dup") ∧
    build_pipeline stateWithDup "dup" ["nope"] ≠
      .error (.unknownTransforms ["nope"]) := by
  refine ⟨rfl, rfl, rfl, fun h => ?_⟩
  have h2 : (Except.error (BuildError.duplicatePipeline "dup") :
      Except BuildError (Pipeline × EngineState)) =
      .error (.unknownTransforms ["nope"]) := h
  exact absurd (Except.error.inj h2) (by decide)

/-- C2 (amended): for every state in which `name` is not yet a registered
pipeline, if some entry of `spec` is absent from the transform registry then
`build_pipeline` fails with `UnknownTransformsError` carrying exactly the
absent names in `spec` order, and registers nothing (no success state
exists, so the caller's registries are untouched). -/
theorem C2_unknown_transforms (st : EngineState) (name : String) (spec : List String)
    (hfresh : st.pipelines name = none)
    (hmiss : spec.filter (fun s => (st.transforms s).isNone) ≠ []) :
    build_pipeline st name spec =
      .error (.unknownTransforms (spec.filter (fun s => (st.transforms s).isNone))) ∧
    ∀ (pipe : Pipeline) (st2 : EngineState),
      build_pipeline st name spec ≠ .ok (pipe, st2) := by
  have hempty : (spec.filter (fun s => (st.transforms s).isNone)).isEmpty = false := by
    cases hc : spec.filter (fun s => (st.transforms s).isNone) with
    | nil => exact absurd hc hmiss
    | cons a as => rfl
  constructor
  · simp [build_pipeline, hfresh, hempty]
  · intro pipe st2 h
    rw [build_pipeline] at h
    simp [hfresh, hempty] at h

/-- C2 witness: on a state with an empty transform registry and the fresh
name `"fresh"`, building from `["nope"]` yields exactly
`unknownTransforms ["nope"]`. -/
theorem C2_unknown_transforms_witness :
    build_pipeline stateWithDup "fresh" ["nope"] =
      .error (.unknownTransforms ["nope"]) :=
  (C2_unknown_transforms stateWithDup "fresh" ["nope"] rfl
    (fun h => List.noConfusion h)).1

/-- C3: whenever `name` is already present in the pipeline registry, a second
`build_pipeline` call fails with `DuplicatePipelineError` regardless of the
contents of `spec` (so the duplicate-name check precedes unknown-transform
validation), and no success state is produced, leaving the caller's
registries unchanged. -/
theorem C3_duplicate_name_first (st : EngineState) (name : String) (spec : List String)
    (hdup : (st.pipelines name).isSome = true) :
    build_pipeline st name spec = .error (.duplicatePipeline name) ∧
    ∀ (pipe : Pipeline) (st2 : EngineState),
      build_pipeline st name spec ≠ .ok (pipe, st2) := by
  constructor
  · simp [build_pipeline, hdup]
  · intro pipe st2 h
    rw [build_pipeline] at h
    simp [hdup] at h

/-- C3 witness: rebuilding `"dup"` from a spec full of unknown transform
names still reports the duplicate-name error. -/
theorem C3_duplicate_name_first_witness :
    build_pipeline stateWithDup "dup" ["nope", "alsonope"] =
      .error (.duplicatePipeline "dup") :=
  (C3_duplicate_name_first stateWithDup "dup" ["nope", "alsonope"] rfl).1

/-- C5: `run_with_context` fails exactly when the named pipeline is not
registered, for every values sequence including the empty one, and the only
error it can produce is `UnknownPipelineError` carrying that name; when the
name is registered no error is returned. -/
theorem C5_unknown_pipeline_iff (st : EngineState) (pName : String)
    (values : List ℝ) (e : RunError) :
    run_with_context st pName values = .error e ↔
      st.pipelines pName = none ∧ e = .unknownPipeline pName := by
  constructor
  · intro h
    cases hp : st.pipelines pName with
    | none =>
      refine ⟨rfl, ?_⟩
      rw [run_with_context, hp] at h
      exact (Except.error.inj h).symm
    | some pipe =>
      exfalso
      cases values with
      | nil => rw [run_with_context, hp] at h; exact Except.noConfusion h
      | cons v vs => rw [run_with_context, hp] at h; exact Except.noConfusion h
  · rintro ⟨h, rfl⟩
    rw [run_with_context, h]

/-- C5 witness: looking up the unregistered name `"ghost"` on the empty
state fails with `UnknownPipelineError "ghost"`. -/
theorem C5_unknown_pipeline_iff_witness :
    run_with_context emptyState "ghost" [] =
      .error (.unknownPipeline "ghost") :=
  (C5_unknown_pipeline_iff emptyState "ghost" [] (.unknownPipeline "ghost")).mpr
    ⟨rfl, rfl⟩

/-- C1 witness: running the one-step doubling pipeline on `[3.0]` produces one
value, namely `6.0`. -/
theorem C1_run_pointwise_witness :
    (pipeDouble.run [3.0]).length = 1 ∧
    (pipeDouble.run [3.0])[0]? = some (6.0 : ℝ) := by
  refine ⟨(C1_run_pointwise pipeDouble [3.0]).1, ?_⟩
  rw [(C1_run_pointwise pipeDouble [3.0]).2.1 0]
  norm_num [applySteps, pipeDouble, double]

/-- C7 witness: `number_stream 3` is exactly `[0, 0.37, 0.74]`. -/
theorem C7_number_stream_values_witness :
    number_stream 3 = [0, 37 / 100, 74 / 100] :=
  (C7_number_stream_values 3).2.2.2

/-- C4: for a registered pipeline, `run_with_context` on the empty sequence
returns the zeroed context (numeric `0.0` range fields, not the `None`
sentinel `summarize` uses — the context's range fields are plain numbers by
construction); on a non-empty sequence it returns the input length as
`input_count`, the input's minimum/maximum as `min_before`/`max_before`,
and the minimum/maximum of the pipeline's output as
`min_after`/`max_after`. -/
theorem C4_context_ranges (st : EngineState) (pName : String) (pipe : Pipeline)
    (hreg : st.pipelines pName = some pipe) :
    run_with_context st pName [] =
      .ok { name := pName, input_count := 0, min_before := 0.0, max_before := 0.0,
            min_after := 0.0, max_after := 0.0 } ∧
    ∀ (v : ℝ) (vs : List ℝ), ∃ ctx : PipelineRunContext,
      run_with_context st pName (v :: vs) = .ok ctx ∧
      ctx.name = pName ∧
      ctx.input_count = (v :: vs).length ∧
      IsMinOf ctx.min_before (v :: vs) ∧ IsMaxOf ctx.max_before (v :: vs) ∧
      IsMinOf ctx.min_after (pipe.run (v :: vs)) ∧
      IsMaxOf ctx.max_after (pipe.run (v :: vs)) := by
  constructor
  · rw [run_with_context, hreg]
  · intro v vs
    refine ⟨{ name := pName
              input_count := (v :: vs).length
              min_before := pyMin v vs
              max_before := pyMax v vs
              min_after := pyMin (applySteps pipe.steps v) (vs.map (applySteps pipe.steps))
              max_after := pyMax (applySteps pipe.steps v) (vs.map (applySteps pipe.steps)) },
            ?_, rfl, rfl, ?_, ?_, ?_, ?_⟩
    · rw [run_with_context, hreg]
    · exact ⟨pyMin_mem vs v, pyMin_le vs v⟩
    · exact ⟨pyMax_mem vs v, le_pyMax vs v⟩
    · exact ⟨pyMin_mem _ _, pyMin_le _ _⟩
    · exact ⟨pyMax_mem _ _, le_pyMax _ _⟩

/-- C4 witness: on the state holding the registered pipeline `"d"`, the empty
input yields the all-zero context. -/
theorem C4_context_ranges_witness :
    run_with_context stAfterBuildD "d" [] =
      .ok { name := "d", input_count := 0, min_before := 0.0, max_before := 0.0,
            min_after := 0.0, max_after := 0.0 } :=
  (C4_context_ranges stAfterBuildD "d" pipeDouble rfl).1

/-- C8: a successfully built pipeline captured the transform functions
themselves at build time (its steps are the registry lookups performed
against the state as it was at build time), and re-registering any transform
name afterwards with any function leaves the registered pipeline — and
hence its `run` output on every value sequence — unchanged. -/
theorem C8_capture_immune (st : EngineState) (name : String) (spec : List String)
    (pipe : Pipeline) (st2 : EngineState)
    (hok : build_pipeline st name spec = .ok (pipe, st2))
    (tname : String) (fn : Transform) :
    pipe.steps = spec.map (fun key => (st.transforms key).getD id) ∧
    (register_transform st2 tname fn).pipelines name = some pipe ∧
    ∀ V : List ℝ,
      ((register_transform st2 tname fn).pipelines name).map (fun p => p.run V) =
        some (pipe.run V) := by
  simp only [build_pipeline] at hok
  split at hok
  · exact Except.noConfusion hok
  · split at hok
    · rw [Except.ok.injEq, Prod.mk.injEq] at hok
      obtain ⟨hpipe, hst⟩ := hok
      subst hpipe
      subst hst
      refine ⟨rfl, ?_, ?_⟩
      · simp [register_transform]
      · intro V
        simp [register_transform]
    · exact Except.noConfusion hok

/-- C8 witness: after building `"d"` from `["double"]` and then re-registering
`"double"` with a different function, the pipeline registry still maps
`"d"` to the pipeline holding the original doubling function. -/
theorem C8_capture_immune_witness :
    (register_transform stAfterBuildD "double" (fun x => x + 100)).pipelines "d" =
      some pipeDouble :=
  (C8_capture_immune stWithDouble "d" ["double"] pipeDouble stAfterBuildD rfl
    "double" (fun x => x + 100)).2.1

/-- C9: each built-in transform computes exactly its specified formula
(`center` subtracts `0.5`, `square` squares, `sqrt_plus_one` is
`sqrt(|x|) + 1`, `clip_0_2` clamps into `[0, 2]`, and `normalize_0_1` is the
identity, not a real normalization), and consequently building `"smooth"`
from `["center", "square", "clip_0_2"]` on the loaded registry succeeds with
exactly those three functions as steps and running it on `[0.0, 1.0]`
yields `[0.25, 0.25]`. -/
theorem C9_builtin_formulas (x : ℝ) :
    center x = x - 0.5 ∧ square x = x * x ∧
    sqrt_plus_one x = Real.sqrt |x| + 1.0 ∧
    clip_0_2 x = max 0.0 (min 2.0 x) ∧
    normalize_0_1 x = x ∧
    ∃ st2 : EngineState,
      build_pipeline initState "smooth" ["center", "square", "clip_0_2"] =
        .ok ({ name := "smooth", steps := [center, square, clip_0_2] }, st2) ∧
      Pipeline.run { name := "smooth", steps := [center, square, clip_0_2] }
        [0.0, 1.0] = [0.25, 0.25] := by
  refine ⟨rfl, rfl, rfl, rfl, rfl,
    { initState with
      pipelines := fun n =>
        if n = "smooth" then
          some { name := "smooth", steps := [center, square, clip_0_2] }
        else initState.pipelines n },
    rfl, ?_⟩
  norm_num [Pipeline.run, applySteps, center, square, clip_0_2, min_def, max_def]

/-- C9 witness: the `"smooth"` pipeline maps `[0.0, 1.0]` to `[0.25, 0.25]`. -/
theorem C9_builtin_formulas_witness :
    Pipeline.run { name := "smooth", steps := [center, square, clip_0_2] }
      [0.0, 1.0] = [0.25, 0.25] := by
  obtain ⟨st2, h1, h2⟩ := (C9_builtin_formulas 0).2.2.2.2.2
  exact h2

/-- C10: building a pipeline from the empty step list and a fresh name
succeeds, registering a pipeline with zero steps, and that pipeline's `run`
is the identity on every value sequence. -/
theorem C10_empty_spec_identity (st : EngineState) (name : String)
    (hfresh : st.pipelines name = none) :
    ∃ st2 : EngineState,
      build_pipeline st name [] = .ok ({ name := name, steps := [] }, st2) ∧
      st2.pipelines name = some { name := name, steps := [] } ∧
      ∀ V : List ℝ, Pipeline.run { name := name, steps := [] } V = V := by
  refine ⟨{ st with
            pipelines := fun n =>
              if n = name then some { name := name, steps := [] }
              else st.pipelines n }, ?_, ?_, ?_⟩
  · rw [build_pipeline, hfresh]
    rfl
  · simp
  · intro V
    have h : applySteps [] = fun v => v := rfl
    simp [Pipeline.run, h]

/-- C10 witness: on the empty state, building `"p"` from the empty spec gives
a pipeline that leaves `[1.0, 2.0]` unchanged. -/
theorem C10_empty_spec_identity_witness :
    Pipeline.run { name := "p", steps := [] } [1.0, 2.0] = [1.0, 2.0] := by
  obtain ⟨st2, h1, h2, h3⟩ := C10_empty_spec_identity emptyState "p" rfl
  exact h3 [1.0, 2.0]
